import Mathlib

/-!
Verification of the `ollm-ai-sdk` provider adapter (`src/ollm-provider.ts`).

The adapter is a configuration-to-handle translator: `createOLLM` resolves a
base URL, builds a lazy header closure, and wires delegated chat/completion
model objects; embedding and image model requests always raise
`NoSuchModelError`.

Header mappings are embedded as ordered lists of name/value pairs, mirroring
a JavaScript object's insertion-ordered string keys.  The process environment
is passed explicitly as `Option String` (the value of `OLLM_API_KEY`): in the
source the header closure reads the environment at each invocation, so here
it takes the environment as an argument at each invocation.  Every `throw`
site of the source is an `Except.error`; functions whose source bodies cannot
throw are total.
-/

set_option autoImplicit false

/-- Errors raised by the adapter.  `missingCredential` embeds the
`LoadAPIKeyError` thrown by key resolution; `noSuchModel` embeds
`NoSuchModelError` with its `modelId` and `modelType` fields. -/
inductive ProviderError where
  | missingCredential (description : String)
  | noSuchModel (modelId : String) (modelType : String)
  deriving DecidableEq, Repr

/-- Provider settings, from `OLLMProviderSettings` in `src/ollm-provider.ts`:
optional `apiKey`, optional `baseURL`, optional custom `headers`
(a `Record<string, string>`, embedded as an insertion-ordered list of
name/value pairs), optional custom `fetch` (kept opaque: only its identity
matters to the adapter, which passes it through unchanged). -/
structure OLLMProviderSettings where
  apiKey : Option String
  baseURL : Option String
  headers : List (String × String)
  fetch : Option Nat
  deriving Repr

/-- `defaultBaseURL` from `src/ollm-provider.ts`. -/
def defaultBaseURL : String := "http://localhost:4000/v1"

/-- `VERSION` from `src/version.ts` (value taken from the built
`dist/index.mjs`, where `VERSION = "1.0.0"`). -/
def VERSION : String := "1.0.0"

/-- Modelled from the spec: `withoutTrailingSlash` comes from the external
`@ai-sdk/provider-utils` package, whose source is not part of this
repository.  The spec says the base URL is "stripped of any single trailing
slash". -/
def withoutTrailingSlash (url : String) : String :=
  if url.data.getLast? = some '/' then String.mk url.data.dropLast else url

/-- Modelled from the spec: `loadApiKey` comes from the external
`@ai-sdk/provider-utils` package, whose source is not part of this
repository.  The spec says the key is resolved "by precedence: explicit
`settings.apiKey` if provided; else a named environment variable", failing
"with a `MissingCredential` error at invocation time if neither is
present". -/
def loadApiKey (apiKey : Option String) (env : Option String)
    (description : String) : Except ProviderError String :=
  match apiKey with
  | some key => Except.ok key
  | none =>
    match env with
    | some key => Except.ok key
    | none => Except.error (ProviderError.missingCredential description)

/-- JavaScript object-literal property assignment on an ordered key/value
list: an existing key keeps its position and has its value replaced, a new
key is appended.  Used to embed the spread `{ Authorization: ..&#x2e;,
...options.headers }`. -/
def setEntry : List (String × String) → String → String → List (String × String)
  | [], key, v => [(key, v)]
  | (n, w) :: rest, key, v =>
    if n = key then (key, v) :: rest else (n, w) :: setEntry rest key v

/-- JavaScript object spread: assign each property of `extra`, in order, on
top of `base`. -/
def objectSpread (base extra : List (String × String)) : List (String × String) :=
  extra.foldl (fun acc p => setEntry acc p.1 p.2) base

/-- Case-sensitive lookup of a JavaScript object property. -/
def lookupKey (entries : List (String × String)) (name : String) : Option String :=
  (entries.find? (fun p => p.1 = name)).map Prod.snd

/-- ASCII lowercase folding of a header name, used to embed the
case-insensitivity of HTTP header names. -/
def lowerName (s : String) : List Char :=
  s.data.map Char.toLower

/-- Case-insensitive header lookup, as HTTP header names are
case-insensitive. -/
def lookupHeader (entries : List (String × String)) (name : String) : Option String :=
  (entries.find? (fun p => lowerName p.1 = lowerName name)).map Prod.snd

/-- Modelled from the spec: `withUserAgentSuffix` comes from the external
`@ai-sdk/provider-utils` package, whose source is not part of this
repository.  The spec says the header closure "appends a fixed
client-identification suffix to a `User-Agent`-class header, preserving any
existing value": the first header whose name is `user-agent` up to case gets
the suffix appended after a space; when none exists, a `user-agent` header
holding just the suffix is added. -/
def withUserAgentSuffix : List (String × String) → String → List (String × String)
  | [], sfx => [("user-agent", sfx)]
  | (n, v) :: rest, sfx =>
    if lowerName n = "user-agent".data then (n, v ++ " " ++ sfx) :: rest
    else (n, v) :: withUserAgentSuffix rest sfx

/-- The `getHeaders` closure of `createOLLM`: resolve the API key (throwing
when unresolvable), build `{ Authorization: Bearer <key>, ...options.headers }`,
then append the `ai-sdk/ollm/<VERSION>` user-agent suffix.  The current
environment value is an argument because the source closure reads
`process.env` on every invocation. -/
def getHeaders (options : OLLMProviderSettings) (env : Option String) :
    Except ProviderError (List (String × String)) := do
  let key ← loadApiKey options.apiKey env "OLLM API key"
  return withUserAgentSuffix
    (objectSpread [("Authorization", "Bearer " ++ key)] options.headers)
    ("ai-sdk/ollm/" ++ VERSION)

/-- Inner object of the OLLM error envelope (`ollmErrorSchema`):
`{ message: string, type?: string, param?: string | null, code?: string | null }`. -/
structure OLLMErrorBody where
  message : String
  type : Option String
  param : Option (Option String)
  code : Option (Option String)
  deriving DecidableEq, Repr

/-- `OLLMErrorData`: the proxy's JSON error envelope `{ error: { ... } }`. -/
structure OLLMErrorData where
  error : OLLMErrorBody
  deriving DecidableEq, Repr

/-- `ProviderErrorStructure` (from `@ai-sdk/openai-compatible`), reduced to
the part this adapter configures: the projection from error data to a
human-readable message. -/
structure ProviderErrorStructure where
  errorToMessage : OLLMErrorData → String

/-- `ollmErrorStructure` from `src/ollm-provider.ts`:
`errorToMessage: data => data.error.message`. -/
def ollmErrorStructure : ProviderErrorStructure :=
  { errorToMessage := fun data => data.error.message }

/-- `CommonModelConfig` from `createOLLM`: provider tag, URL builder, header
closure, optional fetch override. -/
structure CommonModelConfig where
  provider : String
  url : String → String
  headers : Option String → Except ProviderError (List (String × String))
  fetch : Option Nat

/-- The resolved base URL captured by the provider closure:
`withoutTrailingSlash(options.baseURL ?? defaultBaseURL)`. -/
def resolvedBaseURL (options : OLLMProviderSettings) : String :=
  withoutTrailingSlash (options.baseURL.getD defaultBaseURL)

/-- `getCommonModelConfig` from `createOLLM`. -/
def getCommonModelConfig (options : OLLMProviderSettings) (modelType : String) :
    CommonModelConfig :=
  { provider := "ollm." ++ modelType
    url := fun path => resolvedBaseURL options ++ path
    headers := getHeaders options
    fetch := options.fetch }

/-- `OpenAICompatibleChatLanguageModel` (external class), reduced to the
state its constructor stores from this adapter's call: the model id and the
configuration. -/
structure OpenAICompatibleChatLanguageModel where
  modelId : String
  config : CommonModelConfig
  errorStructure : ProviderErrorStructure

/-- `OpenAICompatibleCompletionLanguageModel` (external class), reduced the
same way. -/
structure OpenAICompatibleCompletionLanguageModel where
  modelId : String
  config : CommonModelConfig
  errorStructure : ProviderErrorStructure

/-- `EmbeddingModelV3` (external interface).  Never constructed by this
adapter; present so that "no embedding model object is ever constructed" is
a provable statement rather than a typing accident. -/
structure EmbeddingModelV3 where
  modelId : String
  deriving DecidableEq, Repr

/-- `ImageModelV3` (external interface), likewise never constructed. -/
structure ImageModelV3 where
  modelId : String
  deriving DecidableEq, Repr

/-- `createChatModel` from `createOLLM`. -/
def createChatModel (options : OLLMProviderSettings) (modelId : String) :
    OpenAICompatibleChatLanguageModel :=
  { modelId := modelId
    config := getCommonModelConfig options "chat"
    errorStructure := ollmErrorStructure }

/-- `createCompletionModel` from `createOLLM`. -/
def createCompletionModel (options : OLLMProviderSettings) (modelId : String) :
    OpenAICompatibleCompletionLanguageModel :=
  { modelId := modelId
    config := getCommonModelConfig options "completion"
    errorStructure := ollmErrorStructure }

/-- `createEmbeddingModel` from `createOLLM`: unconditionally throws
`NoSuchModelError`. -/
def createEmbeddingModel (modelId : String) :
    Except ProviderError EmbeddingModelV3 :=
  Except.error (ProviderError.noSuchModel modelId "embeddingModel")

/-- The provider object returned by `createOLLM`: callable as a function
(`call`), plus the named sub-factories assigned onto it. -/
structure OLLMProvider where
  call : String → OpenAICompatibleChatLanguageModel
  specificationVersion : String
  completionModel : String → OpenAICompatibleCompletionLanguageModel
  chatModel : String → OpenAICompatibleChatLanguageModel
  languageModel : String → OpenAICompatibleChatLanguageModel
  embeddingModel : String → Except ProviderError EmbeddingModelV3
  textEmbeddingModel : String → Except ProviderError EmbeddingModelV3
  imageModel : String → Except ProviderError ImageModelV3

/-- `createOLLM` from `src/ollm-provider.ts`.  Construction itself performs
no fallible operation (the source body contains no throw site), so it is a
total function; the only latent failures live in the header closure and the
embedding/image factories. -/
def createOLLM (options : OLLMProviderSettings) : OLLMProvider :=
  { call := createChatModel options
    specificationVersion := "v3"
    completionModel := createCompletionModel options
    chatModel := createChatModel options
    languageModel := createChatModel options
    embeddingModel := createEmbeddingModel
    textEmbeddingModel := createEmbeddingModel
    imageModel := fun modelId =>
      Except.error (ProviderError.noSuchModel modelId "imageModel") }

/-! ## Helper lemmas about the header-list operations -/

theorem setEntry_eq_append (xs : List (String × String)) (k v : String)
    (h : ∀ p ∈ xs, p.1 ≠ k) : setEntry xs k v = xs ++ [(k, v)] := by
  induction xs with
  | nil => rfl
  | cons q rest ih =>
    obtain ⟨n, w⟩ := q
    have hn : n ≠ k := h (n, w) (List.mem_cons_self _ _)
    simp only [setEntry, if_neg hn, List.cons_append]
    rw [ih (fun p hp => h p (List.mem_cons_of_mem _ hp))]

theorem objectSpread_cons (base : List (String × String)) (q : String × String)
    (rest : List (String × String)) :
    objectSpread base (q :: rest) = objectSpread (setEntry base q.1 q.2) rest := rfl

theorem objectSpread_auth_acc (A : String) (done hs : List (String × String))
    (hdisj : ∀ p ∈ hs, ∀ q ∈ done, p.1 ≠ q.1)
    (hnd : (hs.map Prod.fst).Nodup)
    (hda : ∀ q ∈ done, q.1 ≠ "Authorization") :
    objectSpread (("Authorization", A) :: done) hs =
      ("Authorization",
        ((hs.find? (fun p => p.1 = "Authorization")).map Prod.snd).getD A)
        :: (done ++ hs.filter (fun p => p.1 ≠ "Authorization")) := by
  induction hs generalizing A done with
  | nil => simp [objectSpread]
  | cons q rest ih =>
    obtain ⟨n, w⟩ := q
    simp only [List.map_cons, List.nodup_cons] at hnd
    by_cases hn : n = "Authorization"
    · subst hn
      rw [objectSpread_cons]
      have hset : setEntry (("Authorization", A) :: done) "Authorization" w =
          ("Authorization", w) :: done := by
        simp [setEntry]
      rw [hset,
        ih w done (fun p hp q hq => hdisj p (List.mem_cons_of_mem _ hp) q hq)
          hnd.2 hda]
      have hfind : rest.find? (fun p => p.1 = "Authorization") = none := by
        rw [List.find?_eq_none]
        intro p hp
        simp only [decide_eq_true_eq]
        intro hcontra
        exact hnd.1 (hcontra ▸ List.mem_map_of_mem Prod.fst hp)
      rw [hfind]
      simp [List.find?, List.filter]
    · rw [objectSpread_cons]
      have hset : setEntry (("Authorization", A) :: done) n w =
          ("Authorization", A) :: (done ++ [(n, w)]) := by
        simp only [setEntry, if_neg (Ne.symm hn)]
        rw [setEntry_eq_append done n w
          (fun q hq => Ne.symm (hdisj (n, w) (List.mem_cons_self _ _) q hq))]
      rw [hset,
        ih A (done ++ [(n, w)])
          (fun p hp q hq => by
            rcases List.mem_append.mp hq with hq1 | hq2
            · exact hdisj p (List.mem_cons_of_mem _ hp) q hq1
            · have : q = (n, w) := by simpa using hq2
              subst this
              intro hcontra
              exact hnd.1
                ((show p.1 = n from hcontra) ▸ List.mem_map_of_mem Prod.fst hp))
          hnd.2
          (fun q hq => by
            rcases List.mem_append.mp hq with hq1 | hq2
            · exact hda q hq1
            · have : q = (n, w) := by simpa using hq2
              subst this
              exact hn)]
      have hfind : ((n, w) :: rest).find? (fun p => p.1 = "Authorization") =
          rest.find? (fun p => p.1 = "Authorization") := by
        simp [List.find?, hn]
      rw [← hfind]
      have hfilter : ((n, w) :: rest).filter (fun p => p.1 ≠ "Authorization") =
          (n, w) :: rest.filter (fun p => p.1 ≠ "Authorization") := by
        simp [List.filter, hn]
      rw [hfilter]
      simp

theorem objectSpread_auth (A : String) (hs : List (String × String))
    (hnd : (hs.map Prod.fst).Nodup) :
    objectSpread [("Authorization", A)] hs =
      ("Authorization",
        ((hs.find? (fun p => p.1 = "Authorization")).map Prod.snd).getD A)
        :: hs.filter (fun p => p.1 ≠ "Authorization") := by
  have h := objectSpread_auth_acc A [] hs (by simp) hnd (by simp)
  simpa using h

theorem lowerName_ua : lowerName "user-agent" = "user-agent".data := by decide

theorem lookupHeader_withUserAgentSuffix (hs : List (String × String))
    (sfx : String) :
    lookupHeader (withUserAgentSuffix hs sfx) "user-agent" =
      some (match lookupHeader hs "user-agent" with
            | some v => v ++ " " ++ sfx
            | none => sfx) := by
  induction hs with
  | nil =>
    simp [withUserAgentSuffix, lookupHeader, List.find?, lowerName_ua]
  | cons q rest ih =>
    obtain ⟨n, v⟩ := q
    by_cases hn : lowerName n = "user-agent".data
    · simp [withUserAgentSuffix, if_pos hn, lookupHeader, List.find?,
        lowerName_ua, hn]
    · simp only [withUserAgentSuffix, if_neg hn]
      simp only [lookupHeader, List.find?, lowerName_ua] at ih ⊢
      simp only [hn, decide_False, ih]

theorem lookupKey_withUserAgentSuffix (hs : List (String × String))
    (sfx name : String) (h : lowerName name ≠ "user-agent".data) :
    lookupKey (withUserAgentSuffix hs sfx) name = lookupKey hs name := by
  have hne : "user-agent" ≠ name := by
    intro hcontra
    exact h (hcontra ▸ lowerName_ua)
  induction hs with
  | nil => simp [withUserAgentSuffix, lookupKey, List.find?, hne]
  | cons q rest ih =>
    obtain ⟨n, v⟩ := q
    by_cases hn : lowerName n = "user-agent".data
    · have hnname : n ≠ name := by
        intro hcontra
        exact h (hcontra ▸ hn)
      simp [withUserAgentSuffix, if_pos hn, lookupKey, List.find?, hnname]
    · simp only [withUserAgentSuffix, if_neg hn]
      by_cases hnname : n = name
      · simp [lookupKey, List.find?, hnname]
      · simp only [lookupKey, List.find?] at ih ⊢
        simp only [hnname, decide_False, ih]

theorem lookupHeader_filter_auth (hs : List (String × String)) :
    lookupHeader (hs.filter (fun p => p.1 ≠ "Authorization")) "user-agent" =
      lookupHeader hs "user-agent" := by
  induction hs with
  | nil => rfl
  | cons q rest ih =>
    obtain ⟨n, v⟩ := q
    by_cases hn : n = "Authorization"
    · subst hn
      have hlow : ¬ lowerName "Authorization" = lowerName "user-agent" := by
        decide
      rw [List.filter_cons_of_neg (by simp)]
      simp only [lookupHeader, List.find?] at ih ⊢
      simp only [hlow, decide_False, ih]
    · by_cases hl : lowerName n = lowerName "user-agent"
      · rw [List.filter_cons_of_pos (by simp [hn])]
        simp [lookupHeader, List.find?, hl]
      · rw [List.filter_cons_of_pos (by simp [hn])]
        simp only [lookupHeader, List.find?] at ih ⊢
        simp only [hl, decide_False, ih]

/-! ## Claim theorems -/

/-- Claim C2: for every model identifier, `embeddingModel` and
`textEmbeddingModel` raise `NoSuchModelError` with the identifier and model
type `embeddingModel`, and `imageModel` raises it with model type
`imageModel`; no embedding or image model object is ever constructed. -/
theorem embedding_image_models_always_rejected
    (s : OLLMProviderSettings) (id : String) :
    (createOLLM s).embeddingModel id =
        Except.error (ProviderError.noSuchModel id "embeddingModel") ∧
    (createOLLM s).textEmbeddingModel id =
        Except.error (ProviderError.noSuchModel id "embeddingModel") ∧
    (createOLLM s).imageModel id =
        Except.error (ProviderError.noSuchModel id "imageModel") :=
  ⟨rfl, rfl, rfl⟩

/-- Claim C3: with no `apiKey` and no `OLLM_API_KEY` environment value,
provider and chat-model construction succeed (they are total and produce the
requested handle); the `MissingCredential` error appears only when the
header closure is invoked. -/
theorem missingCredential_deferred_to_header_invocation
    (s : OLLMProviderSettings) (id : String) (h : s.apiKey = none) :
    ((createOLLM s).chatModel id).modelId = id ∧
    ((createOLLM s).chatModel id).config.headers none =
      Except.error (ProviderError.missingCredential "OLLM API key") := by
  refine ⟨rfl, ?_⟩
  show getHeaders s none = _
  unfold getHeaders
  rw [show loadApiKey s.apiKey none "OLLM API key" =
    Except.error (ProviderError.missingCredential "OLLM API key") from by
      rw [h]; rfl]
  rfl

theorem missingCredential_deferred_to_header_invocation_witness :
    ((createOLLM ⟨none, none, [], none⟩).chatModel "gpt-4o").modelId = "gpt-4o" ∧
    ((createOLLM ⟨none, none, [], none⟩).chatModel "gpt-4o").config.headers none =
      Except.error (ProviderError.missingCredential "OLLM API key") :=
  missingCredential_deferred_to_header_invocation ⟨none, none, [], none⟩ "gpt-4o" rfl

/-- Claim C4: the URL builder of every handle uses `settings.baseURL` with a
single trailing slash stripped exactly once when present, and the default
endpoint `http://localhost:4000/v1` when absent; in particular
`https://x/v1/` resolves to `https://x/v1`. -/
theorem effective_baseURL_resolution (s : OLLMProviderSettings) (id p : String) :
    ((createOLLM s).chatModel id).config.url p =
      (match s.baseURL with
       | none => "http://localhost:4000/v1"
       | some u =>
         if u.data.getLast? = some '/' then String.mk u.data.dropLast else u)
        ++ p ∧
    ((createOLLM ⟨none, some "https://x/v1/", [], none⟩).chatModel "m").config.url
        "" = "https://x/v1" := by
  constructor
  · show resolvedBaseURL s ++ p = _
    cases hb : s.baseURL with
    | none =>
      rw [show resolvedBaseURL s = "http://localhost:4000/v1" from by
        rw [resolvedBaseURL, hb]; decide]
    | some u =>
      rw [show resolvedBaseURL s =
          (if u.data.getLast? = some '/' then String.mk u.data.dropLast else u)
        from by rw [resolvedBaseURL, hb]; rfl]
  · decide

/-- Claim C6: the provider used as a callable, `chatModel`, and
`languageModel` construct equivalent chat handles: same `modelId` (the
argument) and same provider tag `ollm.chat`. -/
theorem call_chatModel_languageModel_agree
    (s : OLLMProviderSettings) (id : String) :
    ((createOLLM s).call id).modelId = id ∧
    ((createOLLM s).chatModel id).modelId = id ∧
    ((createOLLM s).languageModel id).modelId = id ∧
    ((createOLLM s).call id).config.provider = "ollm.chat" ∧
    ((createOLLM s).chatModel id).config.provider = "ollm.chat" ∧
    ((createOLLM s).languageModel id).config.provider = "ollm.chat" :=
  ⟨rfl, rfl, rfl, rfl, rfl, rfl⟩

/-- Claim C7: chat handles carry provider tag `ollm.chat` and completion
handles `ollm.completion`; both URL builders concatenate the resolved base
URL with the request path; both handles share the header closure, carry the
transport override, and carry the error-shape descriptor whose message
projection is `error.message`. -/
theorem handle_configuration_wiring (s : OLLMProviderSettings) (id p : String)
    (d : OLLMErrorData) (env : Option String) :
    ((createOLLM s).chatModel id).config.provider = "ollm.chat" ∧
    ((createOLLM s).completionModel id).config.provider = "ollm.completion" ∧
    ((createOLLM s).chatModel id).config.url p = resolvedBaseURL s ++ p ∧
    ((createOLLM s).completionModel id).config.url p = resolvedBaseURL s ++ p ∧
    ((createOLLM s).chatModel id).config.headers env = getHeaders s env ∧
    ((createOLLM s).completionModel id).config.headers env = getHeaders s env ∧
    ((createOLLM s).chatModel id).config.fetch = s.fetch ∧
    ((createOLLM s).completionModel id).config.fetch = s.fetch ∧
    ((createOLLM s).chatModel id).errorStructure.errorToMessage d =
      d.error.message ∧
    ((createOLLM s).completionModel id).errorStructure.errorToMessage d =
      d.error.message :=
  ⟨rfl, rfl, rfl, rfl, rfl, rfl, rfl, rfl, rfl, rfl⟩

/-- Claim C10: the handle stores the model identifier verbatim, with no
normalization, for both chat and completion handles. -/
theorem modelId_stored_verbatim (s : OLLMProviderSettings) (id : String) :
    ((createOLLM s).chatModel id).modelId = id ∧
    ((createOLLM s).completionModel id).modelId = id :=
  ⟨rfl, rfl⟩

/-- Settings whose caller headers carry an `Authorization` key, refuting
claim C1: the spread `...options.headers` comes after the `Authorization`
entry in `getHeaders`, so the caller value wins. -/
def authOverrideSettings : OLLMProviderSettings :=
  { apiKey := some "k"
    baseURL := none
    headers := [("Authorization", "caller-token")]
    fetch := none }

/-- Claim C1 counterexample: with resolvable API key `k`, caller headers
containing `Authorization: caller-token` yield a header mapping whose
`Authorization` is `caller-token`, not `Bearer k`. -/
theorem authorization_overridden_by_caller_headers :
    (getHeaders authOverrideSettings none).toOption.map
        (fun hs => lookupKey hs "Authorization") = some (some "caller-token") ∧
    loadApiKey authOverrideSettings.apiKey none "OLLM API key" =
        Except.ok "k" ∧
    ("caller-token" : String) ≠ "Bearer k" := by
  refine ⟨by decide, rfl, by decide⟩

/-- Claim C1 (amended): caller-supplied headers are spread after the
`Authorization` entry, so a caller-supplied `Authorization` key replaces
it; the produced mapping's `Authorization` equals the caller's value when
one is present and `Bearer <resolved key>` otherwise. -/
theorem authorization_header_resolution (s : OLLMProviderSettings)
    (env : Option String) (key : String)
    (hk : loadApiKey s.apiKey env "OLLM API key" = Except.ok key)
    (hnd : (s.headers.map Prod.fst).Nodup) :
    ∃ hs, getHeaders s env = Except.ok hs ∧
      lookupKey hs "Authorization" =
        some (((s.headers.find? (fun p => p.1 = "Authorization")).map
          Prod.snd).getD ("Bearer " ++ key)) := by
  refine ⟨withUserAgentSuffix
    (objectSpread [("Authorization", "Bearer " ++ key)] s.headers)
    ("ai-sdk/ollm/" ++ VERSION), ?_, ?_⟩
  · unfold getHeaders
    rw [hk]
    rfl
  · rw [lookupKey_withUserAgentSuffix _ _ _ (by decide),
      objectSpread_auth _ _ hnd]
    simp [lookupKey, List.find?]

theorem authorization_header_resolution_witness :
    (getHeaders ⟨some "k", none, [("x-extra", "1")], none⟩ none).toOption.map
        (fun hs => lookupKey hs "Authorization") = some (some "Bearer k") := by
  obtain ⟨hs, h1, h2⟩ := authorization_header_resolution
    ⟨some "k", none, [("x-extra", "1")], none⟩ none "k" rfl (by decide)
  rw [h1]
  show some (lookupKey hs "Authorization") = some (some "Bearer k")
  rw [h2]
  decide

/-- Settings whose base URL ends in two slashes, refuting claim C5: only a
single trailing slash is stripped. -/
def doubleSlashSettings : OLLMProviderSettings :=
  { apiKey := none
    baseURL := some "https://x//"
    headers := []
    fetch := none }

/-- Claim C5 counterexample: with `baseURL = "https://x//"`, the base URL
stored in the provider closure is `https://x/`, which still ends with a
trailing slash. -/
theorem storedBaseURL_trailing_slash_counterexample :
    ((createOLLM doubleSlashSettings).chatModel "m").config.url "" =
        "https://x/" ∧
    ("https://x/").data.getLast? = some '/' := by
  refine ⟨by decide, by decide⟩

/-- Claim C5 (amended): exactly one trailing slash is stripped, so for every
settings object whose base URL, when present, does not end in two slashes,
the base URL stored in the provider closure never ends with a trailing
slash (the default endpoint has none). -/
theorem storedBaseURL_no_trailing_slash (s : OLLMProviderSettings)
    (id p : String)
    (h : ∀ u, s.baseURL = some u →
      ¬(u.data.getLast? = some '/' ∧ u.data.dropLast.getLast? = some '/')) :
    ((createOLLM s).chatModel id).config.url p = resolvedBaseURL s ++ p ∧
    ¬(resolvedBaseURL s).data.getLast? = some '/' := by
  refine ⟨rfl, ?_⟩
  cases hb : s.baseURL with
  | none =>
    rw [show resolvedBaseURL s = "http://localhost:4000/v1" from by
      rw [resolvedBaseURL, hb]; decide]
    decide
  | some u =>
    have hu := h u hb
    rw [show resolvedBaseURL s = withoutTrailingSlash u from by
      rw [resolvedBaseURL, hb]; rfl]
    by_cases hslash : u.data.getLast? = some '/'
    · rw [withoutTrailingSlash, if_pos hslash]
      intro hcontra
      exact hu ⟨hslash, hcontra⟩
    · rw [withoutTrailingSlash, if_neg hslash]
      exact hslash

theorem storedBaseURL_no_trailing_slash_witness :
    ((createOLLM ⟨none, some "https://x/v1/", [], none⟩).chatModel "m").config.url
        "/chat" = resolvedBaseURL ⟨none, some "https://x/v1/", [], none⟩
          ++ "/chat" ∧
    ¬(resolvedBaseURL ⟨none, some "https://x/v1/", [], none⟩).data.getLast? =
        some '/' := by
  refine storedBaseURL_no_trailing_slash _ "m" "/chat" ?_
  intro u hu
  injection hu with hu
  subst hu
  decide

/-- Claim C8: whenever the header builder produces a mapping, that mapping's
`User-Agent`-class header carries the fixed suffix `ai-sdk/ollm/<VERSION>`:
appended after the caller-supplied value when the caller headers already
contain one, and standing alone otherwise. -/
theorem userAgent_suffix_appended (s : OLLMProviderSettings)
    (env : Option String) (key : String)
    (hk : loadApiKey s.apiKey env "OLLM API key" = Except.ok key)
    (hnd : (s.headers.map Prod.fst).Nodup) :
    ∃ hs, getHeaders s env = Except.ok hs ∧
      lookupHeader hs "user-agent" =
        some (match lookupHeader s.headers "user-agent" with
              | some v => v ++ " " ++ ("ai-sdk/ollm/" ++ VERSION)
              | none => "ai-sdk/ollm/" ++ VERSION) := by
  refine ⟨withUserAgentSuffix
    (objectSpread [("Authorization", "Bearer " ++ key)] s.headers)
    ("ai-sdk/ollm/" ++ VERSION), ?_, ?_⟩
  · unfold getHeaders
    rw [hk]
    rfl
  · rw [lookupHeader_withUserAgentSuffix, objectSpread_auth _ _ hnd]
    have hhead : ¬ lowerName "Authorization" = lowerName "user-agent" := by
      decide
    have hfa := lookupHeader_filter_auth s.headers
    simp only [lookupHeader, List.find?, hhead, decide_False] at hfa ⊢
    rw [hfa]

theorem userAgent_suffix_appended_witness :
    (getHeaders ⟨some "k", none, [("User-Agent", "MyApp/2")], none⟩
        none).toOption.map (fun hs => lookupHeader hs "user-agent") =
      some (some "MyApp/2 ai-sdk/ollm/1.0.0") := by
  obtain ⟨hs, h1, h2⟩ := userAgent_suffix_appended
    ⟨some "k", none, [("User-Agent", "MyApp/2")], none⟩ none "k" rfl (by decide)
  rw [h1]
  show some (lookupHeader hs "user-agent") =
    some (some "MyApp/2 ai-sdk/ollm/1.0.0")
  rw [h2]
  decide

/-- Claim C9: the handle's header closure is exactly the pure `getHeaders`
function of the captured settings and the current environment value — hence
equal settings and environment give equal mappings — and the environment is
consulted afresh at each invocation: with no configured `apiKey` and no
caller `Authorization` header, the mapping built at environment value `key`
carries `Authorization: Bearer <key>`, so rotating the environment variable
between invocations is reflected. -/
theorem header_builder_fresh_per_invocation (s : OLLMProviderSettings)
    (id key : String) (hapi : s.apiKey = none)
    (hnd : (s.headers.map Prod.fst).Nodup)
    (hauth : s.headers.find? (fun p => p.1 = "Authorization") = none) :
    ((createOLLM s).chatModel id).config.headers = getHeaders s ∧
    ∃ hs, ((createOLLM s).chatModel id).config.headers (some key) =
        Except.ok hs ∧
      lookupKey hs "Authorization" = some ("Bearer " ++ key) := by
  refine ⟨rfl, ⟨withUserAgentSuffix
    (objectSpread [("Authorization", "Bearer " ++ key)] s.headers)
    ("ai-sdk/ollm/" ++ VERSION), ?_, ?_⟩⟩
  · show getHeaders s (some key) = _
    unfold getHeaders
    rw [show loadApiKey s.apiKey (some key) "OLLM API key" = Except.ok key
      from by rw [hapi]; rfl]
    rfl
  · rw [lookupKey_withUserAgentSuffix _ _ _ (by decide),
      objectSpread_auth _ _ hnd, hauth]
    simp [lookupKey, List.find?]

theorem header_builder_fresh_per_invocation_witness :
    ((createOLLM ⟨none, none, [("x-a", "1")], none⟩).chatModel "m").config.headers =
        getHeaders ⟨none, none, [("x-a", "1")], none⟩ ∧
    (((createOLLM ⟨none, none, [("x-a", "1")], none⟩).chatModel "m").config.headers
        (some "rotated")).toOption.map
      (fun hs => lookupKey hs "Authorization") = some (some "Bearer rotated") := by
  obtain ⟨heq, hs, h1, h2⟩ := header_builder_fresh_per_invocation
    ⟨none, none, [("x-a", "1")], none⟩ "m" "rotated" rfl (by decide) (by decide)
  refine ⟨heq, ?_⟩
  rw [h1]
  show some (lookupKey hs "Authorization") = some (some "Bearer rotated")
  rw [h2]
  decide
